import Mathlib

/- Shallow embedding of the rs-eigentrust pipeline: the attestation
   transformer service (src/attestation-transformer/src/main.rs,
   src/attestation-transformer/src/schemas/follow.rs) and the linear
   combiner service (src/linear-combiner/src/main.rs).  RocksDB stores are
   modelled as association lists from byte-string keys to byte-string
   values, the newest binding winning; u32 values are Nat with explicit
   reduction modulo 2^32 where the machine width matters; hex-string
   addresses are modelled by their decoded byte content (hex encoding and
   decoding being mutually inverse bijections).  An RPC handler that can
   end in a Rust panic (assert!) is modelled with an explicit `panicked`
   outcome distinct from returning an error status. -/

/-- A RocksDB key-value store: an association list from byte-string keys to
byte-string values.  `put` prepends a binding and `get` returns the newest
binding for a key, which models overwrite semantics. -/
structure Store where
  entries : List (List Nat × List Nat)
deriving DecidableEq

/-- Newest-first association-list lookup underlying `Store.get`. -/
def lookupEntry : List (List Nat × List Nat) → List Nat → Option (List Nat)
  | [], _ => none
  | (k, v) :: rest, key => if k = key then some v else lookupEntry rest key

/-- Models `db.get(key)` on a RocksDB handle. -/
def Store.get (db : Store) (key : List Nat) : Option (List Nat) :=
  lookupEntry db.entries key

/-- Models `db.put(key, value)` on a RocksDB handle. -/
def Store.put (db : Store) (key value : List Nat) : Store :=
  ⟨(key, value) :: db.entries⟩

/-- A freshly opened, empty store. -/
def Store.empty : Store := ⟨[]⟩

/-- Well-formedness of a combiner store: every stored value is a 4-byte
big-endian u32 image, as written by `u32::to_be_bytes`. -/
def StoreWF (db : Store) : Prop :=
  ∀ p ∈ db.entries, (p.2).length = 4 ∧ ∀ b ∈ p.2, b < 256

/-- Models `u32::to_be_bytes`: the four big-endian bytes of a 32-bit word. -/
def toBeBytes4 (n : Nat) : List Nat :=
  [n / 2 ^ 24 % 256, n / 2 ^ 16 % 256, n / 2 ^ 8 % 256, n % 256]

/-- Models `u32::from_be_bytes` on a 4-byte big-endian buffer. -/
def fromBeBytes4 (bs : List Nat) : Nat :=
  bs.foldl (fun a b => a * 256 + b) 0

/-- The byte string of the literal store key `b"checkpoint"`. -/
def checkpointKey : List Nat := [99, 104, 101, 99, 107, 112, 111, 105, 110, 116]

/-- Models the tonic `Status` values actually produced by the two services. -/
inductive Status where
  | invalid_argument (msg : String)
  | internal (msg : String)
deriving DecidableEq

/-- Modelled from the spec: error.rs is not under src/; the transformer
error taxonomy of section 7 restricted to the variants main.rs and
follow.rs actually construct. -/
inductive AttTrError where
  | ParseError
  | VerificationError
  | NotFoundError
  | DbError
  | SerialisationError
deriving DecidableEq

/-- Outcome of running a fallible handler or conversion that may also hit a
Rust `assert!` failure: a success value, an error value, or a panic. -/
inductive CallResult (ε α : Type) where
  | ok (a : α)
  | err (e : ε)
  | panicked
deriving DecidableEq

/-- Modelled from the spec: term.rs is not under src/; a Term per section 3
is a directed, weighted, domain-tagged edge with 20-byte addresses
(addresses kept as byte lists rather than hex strings). -/
structure Term where
  «from» : List Nat
  «to» : List Nat
  weight : Nat
  domain : Nat
  positive : Bool
deriving DecidableEq

/-- Modelled from the spec: the Term codec of section 3 (canonical binary
encoding used by the transformer store): from-address, to-address, weight,
domain, polarity byte. -/
def Term.into_bytes (t : Term) : List Nat :=
  t.«from» ++ t.«to» ++ toBeBytes4 t.weight ++ toBeBytes4 t.domain ++
    [if t.positive then 1 else 0]

/-- Modelled from the spec: decoding of the Term codec; malformed buffers
fail, per the section 3 invariant that addresses are exactly 20 bytes. -/
def Term.from_bytes (bs : List Nat) : Except AttTrError Term :=
  if bs.length = 49 then
    Except.ok
      { «from» := bs.take 20
        «to» := (bs.drop 20).take 20
        weight := fromBeBytes4 ((bs.drop 40).take 4)
        domain := fromBeBytes4 ((bs.drop 44).take 4)
        positive := (bs.drop 48).headD 0 = 1 }
  else Except.error AttTrError.SerialisationError

/-- The proto TermObject streamed from the transformer to the combiner:
from-address, to-address and weight (addresses as decoded bytes). -/
structure TermObject where
  «from» : List Nat
  «to» : List Nat
  weight : Nat
deriving DecidableEq

/-- Models `impl Into<TermObject> for Term`. -/
def Term.toObject (t : Term) : TermObject :=
  { «from» := t.«from», «to» := t.«to», weight := t.weight }

/-- The proto TermBatch request of `term_stream`. -/
structure TermBatch where
  start : Nat
  size : Nat
deriving DecidableEq

/-- The proto IndexerEvent received on the indexer subscription stream. -/
structure IndexerEvent where
  id : Nat
  schema_id : Nat
  schema_value : String
  timestamp : Nat
deriving DecidableEq

/-- The scope enum of a Follow attestation. -/
inductive Scope where
  | Reviewer
  | Developer
  | Auditor
deriving DecidableEq

/-- Models `impl Into<u8> for Scope`. -/
def Scope.intoByte : Scope → Nat
  | Scope.Reviewer => 0
  | Scope.Developer => 1
  | Scope.Auditor => 2

/-- Modelled from the spec: did.rs is not under src/; a parsed DID holds a
20-byte address-like key (section 3). -/
structure Did where
  key : List Nat
deriving DecidableEq

/-- A parsed recoverable ECDSA signature as handed to the secp256k1
primitives: its recovery id and its 64 compact bytes. -/
def RecSig : Type := Nat × List Nat

instance : DecidableEq RecSig := instDecidableEqProd

/-- The secp256k1 and Keccak primitives used by follow.rs, taken as an
abstract oracle: `keccak256` hashes a byte string; `sigFromCompact` models
`RecoverableSignature::from_compact` over the 64 compact bytes and the
recovery id; `recover` models `RecoverableSignature::recover` on a 32-byte
digest; `verify` models `Secp256k1::verify_ecdsa` of the standardised
signature against a public key.  Public keys are their 65-byte uncompressed
serialisations. -/
structure Crypto where
  keccak256 : List Nat → List Nat
  sigFromCompact : List Nat → Int → Option RecSig
  recover : RecSig → List Nat → Option (List Nat)
  verify : List Nat → RecSig → List Nat → Bool

/-- The Follow attestation payload: subject DID, polarity, scope, and a
recoverable signature given as `(recovery_id, r, s)`. -/
structure FollowSchema where
  id : Did
  is_trustworthy : Bool
  scope : Scope
  sig : Int × List Nat × List Nat
deriving DecidableEq

/-- The canonical digest input of a Follow payload: the DID key, the
polarity byte and the scope byte, in that order, as hashed by `validate`. -/
def FollowSchema.digestInput (self : FollowSchema) : List Nat :=
  self.id.key ++ [if self.is_trustworthy then 1 else 0, self.scope.intoByte]

/-- Models `FollowSchema::validate`: recompute the Keccak-256 digest
(`Message::from_digest_slice` rejects a digest that is not 32 bytes),
rebuild the recoverable signature (`RecoveryId::from_i32` accepts only ids
0 through 3, `from_compact` may reject the compact bytes), recover the
public key, and report it together with the outcome of independent
verification; every primitive failure is a VerificationError. -/
def FollowSchema.validate (C : Crypto) (self : FollowSchema) :
    Except AttTrError (List Nat × Bool) :=
  let digest := C.keccak256 self.digestInput
  if digest.length ≠ 32 then Except.error AttTrError.VerificationError
  else if self.sig.1 < 0 ∨ 3 < self.sig.1 then
    Except.error AttTrError.VerificationError
  else
    match C.sigFromCompact (self.sig.2.1 ++ self.sig.2.2) self.sig.1 with
    | none => Except.error AttTrError.VerificationError
    | some signature =>
      match C.recover signature digest with
      | none => Except.error AttTrError.VerificationError
      | some pk => Except.ok (pk, C.verify digest signature pk)

/-- Modelled from the spec: utils.rs is not under src/; per section 4.1 the
signer address is the last 20 bytes of the Keccak-256 hash of the
uncompressed public key without its format prefix byte. -/
def address_from_ecdsa_key (C : Crypto) (pk : List Nat) : List Nat :=
  (C.keccak256 (pk.drop 1)).drop 12

/-- The fixed domain tag of the Follow schema. -/
def FollowSchema.DOMAIN : Nat := 1

/-- Models `FollowSchema::into_term`: validate the payload, then run
`assert!(valid)` — a recovered-but-unverified signature panics the process
— and finally build the Term from the recovered signer address and the
subject DID key with the fixed weight 50, domain 1 and positive polarity. -/
def FollowSchema.into_term (C : Crypto) (self : FollowSchema) :
    CallResult AttTrError Term :=
  match self.validate C with
  | Except.error e => CallResult.err e
  | Except.ok (pk, valid) =>
    if valid then
      let from_address := address_from_ecdsa_key C pk
      let to_address := self.id.key
      let weight := 50
      CallResult.ok
        { «from» := from_address, «to» := to_address, weight := weight
          domain := FollowSchema.DOMAIN, positive := true }
    else CallResult.panicked

namespace LinearCombinerService

/-- Models `LinearCombinerService::read_checkpoint`: absent key reads as
zero; `copy_from_slice` on a buffer that is not 4 bytes long panics, which
is modelled as `none`. -/
def read_checkpoint (db : Store) : Option Nat :=
  match db.get checkpointKey with
  | none => some 0
  | some x => if x.length = 4 then some (fromBeBytes4 x) else none

/-- Models `LinearCombinerService::write_checkpoint`. -/
def write_checkpoint (db : Store) (count : Nat) : Store :=
  db.put checkpointKey (toBeBytes4 count)

/-- Models `LinearCombinerService::get_index`: an address already in the
index table keeps its index and changes nothing; a fresh address is
assigned the current offset, which is persisted, and the in-memory offset
is incremented. -/
def get_index (db : Store) (source : List Nat) (offset : Nat) :
    List Nat × Store × Nat :=
  match db.get source with
  | some from_i => (from_i, db, offset)
  | none =>
    let curr_offset := toBeBytes4 offset
    (curr_offset, db.put source curr_offset, (offset + 1) % 2 ^ 32)

/-- Models `LinearCombinerService::get_value`: an absent key reads as zero;
`copy_from_slice` on a buffer that is not 4 bytes long panics, modelled as
`none`. -/
def get_value (main_db : Store) (key : List Nat) : Option Nat :=
  match main_db.get key with
  | none => some 0
  | some x => if x.length = 4 then some (fromBeBytes4 x) else none

/-- Models `LinearCombinerService::update_value`: read the current value,
add the weight with u32 arithmetic, and store the new total in both the
aggregate table and the updates table. -/
def update_value (main_db updates_db : Store) (key : List Nat) (weight : Nat) :
    Option (Store × Store) :=
  (get_value main_db key).map fun value =>
    let new_value := toBeBytes4 (value + weight)
    (main_db.put key new_value, updates_db.put key new_value)

/-- One iteration of the `sync_transformer` loop body for a single term:
resolve or assign both indices, form the composite key, and accumulate the
weight. -/
def process_term (s : Store × Store × Nat) (term : TermObject) :
    Option (Store × Store × Nat) :=
  let (main_db, updates_db, offset) := s
  let (x, main_db, offset) := get_index main_db term.«from» offset
  let (y, main_db, offset) := get_index main_db term.«to» offset
  let key := x ++ y
  (update_value main_db updates_db key term.weight).map fun p =>
    (p.1, p.2, offset)

/-- Models `LinearCombinerService::sync_transformer`: read the checkpoint,
drain the whole inbound stream (given here as the list of received terms),
process every term in arrival order, then persist the checkpoint. -/
def sync_transformer (main_db updates_db : Store) (terms : List TermObject) :
    Option (Store × Store) := do
  let offset ← read_checkpoint main_db
  let s ← terms.foldlM process_term (main_db, updates_db, offset)
  pure (write_checkpoint s.1 s.2.2, s.2.1)

/-- The proto LtBatch request of `sync_core_computer`; its fields are
ignored by the handler. -/
structure LtBatch where
deriving DecidableEq

/-- The proto LtObject sparse-matrix triplet streamed to the core
computer. -/
structure LtObject where
  x : Nat
  y : Nat
  value : Nat
deriving DecidableEq

/-- Models `LinearCombinerService::sync_core_computer`: the handler ignores
the request and the stores, sends four constant zero triplets into the
channel, and returns; the receiver stream thus yields exactly those four
items. -/
def sync_core_computer (_main_db _updates_db : Store) (_request : LtBatch) :
    List LtObject :=
  List.replicate 4 ⟨0, 0, 0⟩

/-- The specification-side meaning of C2, following the spec words: the
stream holds a triplet exactly when the store holds the corresponding
aggregate-matrix entry (every stored composite key appears with its current
accumulated value, and nothing else). -/
def stream_represents_matrix (stream : List LtObject) (main_db : Store) : Prop :=
  ∀ o : LtObject, o ∈ stream ↔
    main_db.get (toBeBytes4 o.x ++ toBeBytes4 o.y) = some (toBeBytes4 o.value)

end LinearCombinerService

namespace TransformerService

/-- The transformer's maximum size of a served term batch. -/
def MAX_TERM_BATCH_SIZE : Nat := 1000

/-- Models `TransformerService::read_checkpoint`: absent key reads as zero;
`copy_from_slice` on a buffer that is not 4 bytes long panics, modelled as
`none`. -/
def read_checkpoint (db : Store) : Option Nat :=
  match db.get checkpointKey with
  | none => some 0
  | some x => if x.length = 4 then some (fromBeBytes4 x) else none

/-- Models `TransformerService::write_checkpoint`. -/
def write_checkpoint (db : Store) (count : Nat) : Store :=
  db.put checkpointKey (toBeBytes4 count)

/-- Models `TransformerService::read_terms`: iterate `i` over the Rust
range `batch.start..batch.size`, read the term stored at each id, fail with
NotFoundError on a missing id, and decode each term into a TermObject. -/
def read_terms (db : Store) (batch : TermBatch) :
    Except AttTrError (List TermObject) :=
  (List.range' batch.start (batch.size - batch.start)).foldlM
    (fun terms i =>
      match db.get (toBeBytes4 i) with
      | none => Except.error AttTrError.NotFoundError
      | some res =>
        match Term.from_bytes res with
        | Except.error e => Except.error e
        | Except.ok term => Except.ok (terms ++ [term.toObject]))
    []

/-- Models `TransformerService::write_terms`: one write batch putting each
term's encoding at its big-endian id key. -/
def write_terms (db : Store) (terms : List (Nat × Term)) : Store :=
  terms.foldl (fun b p => b.put (toBeBytes4 p.1) (p.2).into_bytes) db

/-- Models the receive loop of `sync_indexer`: for each event, the Rust
code first runs `assert!(res.id == count)` (a mismatch panics the process),
then parses the event (a parse error aborts the call with an internal
status), accumulating the parsed terms and incrementing the counter.
`parse_event` is a parameter because the schema dispatch target modules are
largely not under src/. -/
def sync_loop (parse_event : IndexerEvent → Except AttTrError (Nat × Term)) :
    List IndexerEvent → Nat → List (Nat × Term) →
    CallResult Status (Nat × List (Nat × Term))
  | [], count, terms => CallResult.ok (count, terms)
  | res :: rest, count, terms =>
    if res.id = count then
      match parse_event res with
      | Except.error _ => CallResult.err (Status.internal "Failed to parse event")
      | Except.ok term => sync_loop parse_event rest (count + 1) (terms ++ [term])
    else CallResult.panicked

/-- Models `TransformerService::sync_indexer`: the running counter starts
at the literal `offset = 0` (the persisted checkpoint is not read); the
whole stream is consumed by `sync_loop`; on success all terms are written
in one batch and the checkpoint is set to the final count. -/
def sync_indexer (parse_event : IndexerEvent → Except AttTrError (Nat × Term))
    (db : Store) (events : List IndexerEvent) : CallResult Status Store :=
  let offset := 0
  match sync_loop parse_event events offset [] with
  | CallResult.panicked => CallResult.panicked
  | CallResult.err s => CallResult.err s
  | CallResult.ok (count, terms) =>
    let db := write_terms db terms
    let db := write_checkpoint db count
    CallResult.ok db

/-- Models `TransformerService::term_stream`: reject oversized batches with
an invalid-argument status, otherwise read the terms and forward them to
the combiner; the success value is the list of terms forwarded. -/
def term_stream (db : Store) (inner : TermBatch) :
    Except Status (List TermObject) :=
  if inner.size > MAX_TERM_BATCH_SIZE then
    Except.error (Status.invalid_argument "Batch size too big. Max size: 1000")
  else
    match read_terms db inner with
    | Except.error _ => Except.error (Status.internal "Failed to read terms")
    | Except.ok terms => Except.ok terms

end TransformerService

/- Concrete fixtures used to evaluate the handlers at specific inputs. -/

/-- A fixed well-formed Term used as a concrete fixture. -/
def sampleTerm : Term :=
  { «from» := List.replicate 20 0, «to» := List.replicate 20 1, weight := 50
    domain := 1, positive := true }

/-- A concrete stand-in for `parse_event` that always succeeds, pairing the
event id with a fixed term, as `parse_event` does on a valid payload. -/
def idParse : IndexerEvent → Except AttTrError (Nat × Term) :=
  fun e => Except.ok (e.id, sampleTerm)

/-- A concrete crypto oracle on which signature recovery succeeds but
strict verification fails, as happens in secp256k1 for a non-normalized
(high-s) recoverable signature. -/
def cryptoReject : Crypto :=
  { keccak256 := fun _ => List.replicate 32 0
    sigFromCompact := fun _ _ => some (0, List.replicate 64 0)
    recover := fun _ _ => some (List.replicate 65 2)
    verify := fun _ _ _ => false }

/-- A concrete crypto oracle on which recovery yields a fixed signer key
and verification succeeds, as for a freshly produced valid signature. -/
def cryptoAccept : Crypto :=
  { keccak256 := fun _ => List.replicate 32 0
    sigFromCompact := fun _ _ => some (0, List.replicate 64 0)
    recover := fun _ _ => some (List.replicate 65 7)
    verify := fun _ _ _ => true }

/-- A concrete Follow payload fixture. -/
def samplePayload : FollowSchema :=
  { id := ⟨List.replicate 20 3⟩, is_trustworthy := true
    scope := Scope.Auditor
    sig := (0, List.replicate 32 0, List.replicate 32 0) }

/-- A transformer store holding encoded terms at ids 0, 1 and 2. -/
def dbWithTerms3 : Store :=
  ((Store.empty.put (toBeBytes4 0) sampleTerm.into_bytes).put
    (toBeBytes4 1) sampleTerm.into_bytes).put
    (toBeBytes4 2) sampleTerm.into_bytes

/-- The composite key a term resolves to when both of its addresses are
already present in the index table of `db`: the stored from-index bytes
followed by the stored to-index bytes. -/
def LinearCombinerService.keyOf (db : Store) (t : TermObject) : List Nat :=
  ((db.get t.«from»).getD []) ++ ((db.get t.«to»).getD [])

/-- The total weight contributed to composite key `k` by a list of terms,
resolving addresses against the index table of `db`. -/
def LinearCombinerService.weightSum (db : Store) (k : List Nat)
    (terms : List TermObject) : Nat :=
  ((terms.filter fun t => decide (LinearCombinerService.keyOf db t = k)).map
    TermObject.weight).sum

/-- Four distinct 20-byte fixture addresses. -/
def addrA : List Nat := List.replicate 20 10

/-- Second fixture address. -/
def addrB : List Nat := List.replicate 20 11

/-- Third fixture address. -/
def addrC : List Nat := List.replicate 20 12

/-- Fourth fixture address. -/
def addrD : List Nat := List.replicate 20 13

/-- A term from addrA to addrB with weight 1. -/
def tAB : TermObject := { «from» := addrA, «to» := addrB, weight := 1 }

/-- A term from addrC to addrD with weight 2. -/
def tCD : TermObject := { «from» := addrC, «to» := addrD, weight := 2 }

/-- A term from addrA to addrB with weight 5. -/
def tAB5 : TermObject := { «from» := addrA, «to» := addrB, weight := 5 }

/-- A term from addrB to addrA with weight 7. -/
def tBA7 : TermObject := { «from» := addrB, «to» := addrA, weight := 7 }

/-- A well-formed combiner store whose index table already assigns indices
0 and 1 to addrA and addrB, with checkpoint 2. -/
def idxStore : Store :=
  ((Store.empty.put addrA (toBeBytes4 0)).put addrB (toBeBytes4 1)).put
    checkpointKey (toBeBytes4 2)

/- Helper lemmas shared by the claim theorems. -/

/-- Reading after writing: a `put` shadows the written key and leaves every
other key unchanged. -/
theorem Store.get_put (db : Store) (k v k2 : List Nat) :
    (db.put k v).get k2 = if k = k2 then some v else db.get k2 := by
  simp [Store.get, Store.put, lookupEntry]

/-- A big-endian u32 image is 4 bytes long. -/
theorem toBeBytes4_length (n : Nat) : (toBeBytes4 n).length = 4 := rfl

/-- Every byte of a big-endian u32 image is below 256. -/
theorem toBeBytes4_bytes_lt (n : Nat) : ∀ b ∈ toBeBytes4 n, b < 256 := by
  simp [toBeBytes4]
  omega

/-- Decoding an encoded u32 recovers the value reduced modulo 2^32. -/
theorem fromBe_toBe (n : Nat) : fromBeBytes4 (toBeBytes4 n) = n % 2 ^ 32 := by
  simp [toBeBytes4, fromBeBytes4]
  omega

/-- A 4-byte buffer of genuine bytes decodes below 2^32. -/
theorem fromBeBytes4_lt (bs : List Nat) (hl : bs.length = 4)
    (hb : ∀ b ∈ bs, b < 256) : fromBeBytes4 bs < 2 ^ 32 := by
  match bs, hl with
  | [a, b, c, d], _ =>
    simp [fromBeBytes4] at *
    omega

/-- Reading the combiner's freshly written value at the written key. -/
theorem get_value_put_self (db : Store) (k : List Nat) (n : Nat) :
    LinearCombinerService.get_value (db.put k (toBeBytes4 n)) k
      = some (n % 2 ^ 32) := by
  simp [LinearCombinerService.get_value, Store.get_put, fromBe_toBe,
    toBeBytes4_length]

/-- Claim C8: for every address already present in the combiner's index
table and every checkpoint value, `get_index` returns the index previously
assigned to that address, does not modify the index table, and does not
increment the in-memory checkpoint counter. -/
theorem get_index_idempotent (db : Store) (source : List Nat) (offset : Nat)
    (idx : List Nat) (h : db.get source = some idx) :
    LinearCombinerService.get_index db source offset = (idx, db, offset) := by
  simp [LinearCombinerService.get_index, h]

/-- Witness for C8 at a concrete store holding one assigned address. -/
theorem get_index_idempotent_witness :
    (Store.empty.put [1, 2] (toBeBytes4 0)).get [1, 2] = some (toBeBytes4 0) ∧
    LinearCombinerService.get_index (Store.empty.put [1, 2] (toBeBytes4 0))
      [1, 2] 7 = (toBeBytes4 0, Store.empty.put [1, 2] (toBeBytes4 0), 7) :=
  ⟨by decide, get_index_idempotent _ _ _ _ (by decide)⟩

/-- Claim C9: for every uint32 value N, writing the checkpoint and then
reading it returns exactly N, in both the transformer and the linear
combiner. -/
theorem checkpoint_roundtrip (db db2 : Store) (n : Nat) (h : n < 2 ^ 32) :
    TransformerService.read_checkpoint
      (TransformerService.write_checkpoint db n) = some n ∧
    LinearCombinerService.read_checkpoint
      (LinearCombinerService.write_checkpoint db2 n) = some n := by
  have hmod : n % 2 ^ 32 = n := Nat.mod_eq_of_lt h
  constructor <;>
    simp [TransformerService.read_checkpoint,
      TransformerService.write_checkpoint,
      LinearCombinerService.read_checkpoint,
      LinearCombinerService.write_checkpoint, Store.get_put, fromBe_toBe,
      toBeBytes4_length, hmod] <;> omega

/-- Witness for C9 at the maximum u32 value on empty stores. -/
theorem checkpoint_roundtrip_witness :
    4294967295 < 2 ^ 32 ∧
    (TransformerService.read_checkpoint
      (TransformerService.write_checkpoint Store.empty 4294967295) =
        some 4294967295 ∧
    LinearCombinerService.read_checkpoint
      (LinearCombinerService.write_checkpoint Store.empty 4294967295) =
        some 4294967295) :=
  ⟨by decide, checkpoint_roundtrip Store.empty Store.empty 4294967295 (by decide)⟩

/-- Claim C10: `update_value` accumulates with an unguarded u32 addition:
whenever the existing stored value plus the incoming weight stays within
u32 range, it stores exactly their sum in both the aggregate and the
updates tables, the u32 reduction of the sum is the sum itself (the
overflow branch is unreachable), and no guard rejects any weight. -/
theorem update_value_exact (main_db updates_db : Store) (key : List Nat)
    (weight v : Nat)
    (hv : LinearCombinerService.get_value main_db key = some v)
    (hbound : v + weight < 2 ^ 32) :
    ∃ m u,
      LinearCombinerService.update_value main_db updates_db key weight
        = some (m, u) ∧
      LinearCombinerService.get_value m key = some (v + weight) ∧
      LinearCombinerService.get_value u key = some (v + weight) ∧
      (v + weight) % 2 ^ 32 = v + weight ∧
      ∀ w2, (LinearCombinerService.update_value main_db updates_db key
        w2).isSome := by
  have hmod : (v + weight) % 2 ^ 32 = v + weight := Nat.mod_eq_of_lt hbound
  refine ⟨main_db.put key (toBeBytes4 (v + weight)),
    updates_db.put key (toBeBytes4 (v + weight)), ?_, ?_, ?_, hmod, ?_⟩
  · simp [LinearCombinerService.update_value, hv]
  · rw [get_value_put_self, hmod]
  · rw [get_value_put_self, hmod]
  · intro w2
    simp [LinearCombinerService.update_value, hv]

/-- Witness for C10 at an empty aggregate store and weight 50. -/
theorem update_value_exact_witness :
    LinearCombinerService.get_value Store.empty [0] = some 0 ∧
    0 + 50 < 2 ^ 32 ∧
    ∃ m u,
      LinearCombinerService.update_value Store.empty Store.empty [0] 50
        = some (m, u) ∧
      LinearCombinerService.get_value m [0] = some (0 + 50) ∧
      LinearCombinerService.get_value u [0] = some (0 + 50) ∧
      (0 + 50) % 2 ^ 32 = 0 + 50 ∧
      ∀ w2, (LinearCombinerService.update_value Store.empty Store.empty [0]
        w2).isSome :=
  ⟨by decide, by decide,
    update_value_exact Store.empty Store.empty [0] 50 0 (by decide) (by decide)⟩

/-- Claim C3 (counterexample): after a persisted checkpoint of 3, a
`sync_indexer` call rejects a stream starting at id 3 with a panic, while a
stream starting at id 0 is accepted — the running counter starts at 0, not
at the checkpoint, so the claim as stated is false. -/
theorem sync_indexer_ignores_checkpoint_cex :
    TransformerService.sync_indexer idParse
      (TransformerService.write_checkpoint Store.empty 3)
      [{ id := 3, schema_id := 1, schema_value := "x", timestamp := 0 }]
      = CallResult.panicked ∧
    TransformerService.sync_indexer idParse
      (TransformerService.write_checkpoint Store.empty 3)
      [{ id := 0, schema_id := 1, schema_value := "x", timestamp := 0 }]
      = CallResult.ok
        (TransformerService.write_checkpoint
          (TransformerService.write_terms
            (TransformerService.write_checkpoint Store.empty 3)
            [(0, sampleTerm)]) 1) := by
  constructor <;> rfl

/-- Claim C3 (amended): every `sync_indexer` call starts its running
event-id counter at the literal 0, regardless of the persisted checkpoint;
a stream whose first event id is not 0 is rejected (by the id assertion),
whatever checkpoint value was last written. -/
theorem sync_indexer_counter_starts_at_zero
    (parse : IndexerEvent → Except AttTrError (Nat × Term)) (db : Store)
    (n : Nat) (e : IndexerEvent) (rest : List IndexerEvent)
    (h : e.id ≠ 0) :
    TransformerService.sync_indexer parse
      (TransformerService.write_checkpoint db n) (e :: rest)
      = CallResult.panicked := by
  simp [TransformerService.sync_indexer, TransformerService.sync_loop, h]

/-- Witness for the amended C3 at a concrete checkpoint and stream. -/
theorem sync_indexer_counter_starts_at_zero_witness :
    ({ id := 2, schema_id := 1, schema_value := "", timestamp := 0 } :
      IndexerEvent).id ≠ 0 ∧
    TransformerService.sync_indexer idParse
      (TransformerService.write_checkpoint Store.empty 5)
      [{ id := 2, schema_id := 1, schema_value := "", timestamp := 0 }]
      = CallResult.panicked :=
  ⟨by decide,
    sync_indexer_counter_starts_at_zero idParse Store.empty 5
      { id := 2, schema_id := 1, schema_value := "", timestamp := 0 } []
      (by decide)⟩

/-- Claim C4: the code iterates over the Rust range `start..size`, treating
`size` as an exclusive end bound instead of a count: with start 5 and size
3 it reads nothing and succeeds on an empty store, where the claimed range
[5, 8) is unpopulated and must give NotFound; with start 1 and size 3 on a
store holding ids 0, 1, 2 it returns the two terms at ids 1 and 2, where
the claimed range [1, 4) hits the missing id 3 and must give NotFound. -/
theorem read_terms_range_bug :
    TransformerService.read_terms Store.empty { start := 5, size := 3 }
      = Except.ok [] ∧
    TransformerService.term_stream Store.empty { start := 5, size := 3 }
      = Except.ok [] ∧
    TransformerService.read_terms dbWithTerms3 { start := 1, size := 3 }
      = Except.ok [sampleTerm.toObject, sampleTerm.toObject] :=
  ⟨rfl, rfl, rfl⟩

/-- Claim C5: on a stream whose single event id is 1 while the running
counter expects 0, `sync_indexer` ends in a process panic (the id
assertion), not in an error status. -/
theorem sync_indexer_panics_on_gap :
    TransformerService.sync_indexer idParse Store.empty
      [{ id := 1, schema_id := 1, schema_value := "a", timestamp := 7 }]
      = CallResult.panicked := rfl

/-- Claim C1: on a payload whose signature recovery succeeds but whose
strict verification fails (as for a non-normalized high-s signature),
`validate` reports the recovered key with a false validity flag, and
`into_term` then hits `assert!(valid)` and panics instead of returning a
VerificationError. -/
theorem follow_into_term_panics_on_invalid :
    FollowSchema.validate cryptoReject samplePayload
      = Except.ok (List.replicate 65 2, false) ∧
    FollowSchema.into_term cryptoReject samplePayload
      = CallResult.panicked :=
  ⟨rfl, rfl⟩

/-- Claim C6: for every payload whose signature is a fresh valid signature
of its canonical digest (recovery returns the signer's key and verification
succeeds), `validate` recovers exactly that key with a true flag, and
`into_term` produces the Term whose from-address is the signer's derived
address, whose to-address is the DID key, with weight 50, domain 1 and
positive polarity. -/
theorem follow_into_term_correct (C : Crypto) (self : FollowSchema)
    (sig : RecSig) (pk : List Nat)
    (hdig : (C.keccak256 self.digestInput).length = 32)
    (hrid : 0 ≤ self.sig.1 ∧ self.sig.1 ≤ 3)
    (hcompact : C.sigFromCompact (self.sig.2.1 ++ self.sig.2.2) self.sig.1
      = some sig)
    (hrecover : C.recover sig (C.keccak256 self.digestInput) = some pk)
    (hverify : C.verify (C.keccak256 self.digestInput) sig pk = true) :
    FollowSchema.validate C self = Except.ok (pk, true) ∧
    FollowSchema.into_term C self = CallResult.ok
      { «from» := address_from_ecdsa_key C pk, «to» := self.id.key
        weight := 50, domain := FollowSchema.DOMAIN, positive := true } := by
  have hc : ¬(self.sig.1 < 0 ∨ 3 < self.sig.1) := by omega
  have hv : FollowSchema.validate C self = Except.ok (pk, true) := by
    simp [FollowSchema.validate, hdig, hc, hcompact, hrecover, hverify]
  exact ⟨hv, by simp [FollowSchema.into_term, hv]⟩

/-- Witness for C6 at a concrete accepting oracle and payload. -/
theorem follow_into_term_correct_witness :
    (cryptoAccept.keccak256 samplePayload.digestInput).length = 32 ∧
    (FollowSchema.validate cryptoAccept samplePayload
      = Except.ok (List.replicate 65 7, true) ∧
    FollowSchema.into_term cryptoAccept samplePayload = CallResult.ok
      { «from» := address_from_ecdsa_key cryptoAccept (List.replicate 65 7)
        «to» := samplePayload.id.key, weight := 50
        domain := FollowSchema.DOMAIN, positive := true }) :=
  ⟨rfl,
    follow_into_term_correct cryptoAccept samplePayload
      (0, List.replicate 64 0) (List.replicate 65 7) rfl
      ⟨by decide, by decide⟩ rfl rfl rfl⟩

/-- Claim C2: `sync_core_computer` ignores its request and both stores and
streams four constant zero triplets; on a store holding the single
aggregate entry (0, 1) with value 50 the stream does not represent the
matrix — the stored entry is absent from the stream and the zero triplet it
does carry corresponds to no stored entry. -/
theorem sync_core_computer_stub :
    LinearCombinerService.sync_core_computer
      (Store.empty.put (toBeBytes4 0 ++ toBeBytes4 1) (toBeBytes4 50))
      Store.empty LinearCombinerService.LtBatch.mk
      = List.replicate 4 { x := 0, y := 0, value := 0 } ∧
    ¬ LinearCombinerService.stream_represents_matrix
      (LinearCombinerService.sync_core_computer
        (Store.empty.put (toBeBytes4 0 ++ toBeBytes4 1) (toBeBytes4 50))
        Store.empty LinearCombinerService.LtBatch.mk)
      (Store.empty.put (toBeBytes4 0 ++ toBeBytes4 1) (toBeBytes4 50)) := by
  refine ⟨rfl, fun h => ?_⟩
  have hmem := (h { x := 0, y := 1, value := 50 }).mpr (by decide)
  simp [LinearCombinerService.sync_core_computer, List.mem_replicate] at hmem

/-- A successful lookup pairs the key with a stored entry. -/
theorem lookupEntry_mem {es : List (List Nat × List Nat)} {k v : List Nat}
    (h : lookupEntry es k = some v) : (k, v) ∈ es := by
  induction es with
  | nil => simp [lookupEntry] at h
  | cons p rest ih =>
    rcases p with ⟨k2, v2⟩
    by_cases hk : k2 = k
    · subst hk
      simp [lookupEntry] at h
      subst h
      exact List.mem_cons_self _ _
    · simp [lookupEntry, hk] at h
      exact List.mem_cons_of_mem _ (ih h)

/-- In a well-formed store every retrieved value is a 4-byte buffer of
genuine bytes. -/
theorem StoreWF.get {db : Store} (hwf : StoreWF db) {k v : List Nat}
    (h : db.get k = some v) : v.length = 4 ∧ ∀ b ∈ v, b < 256 :=
  hwf (k, v) (lookupEntry_mem h)

/-- Writing an encoded u32 preserves store well-formedness. -/
theorem StoreWF.put_toBe {db : Store} (hwf : StoreWF db) (k : List Nat)
    (n : Nat) : StoreWF (db.put k (toBeBytes4 n)) := by
  intro p hp
  simp [Store.put] at hp
  rcases hp with h | h
  · subst h
    exact ⟨toBeBytes4_length n, toBeBytes4_bytes_lt n⟩
  · exact hwf p h

/-- On a well-formed store `get_value` always succeeds with a u32 value. -/
theorem get_value_wf {db : Store} (hwf : StoreWF db) (k : List Nat) :
    ∃ v, LinearCombinerService.get_value db k = some v ∧ v < 2 ^ 32 := by
  cases hg : db.get k with
  | none => exact ⟨0, by simp [LinearCombinerService.get_value, hg], by norm_num⟩
  | some x =>
    obtain ⟨hl, hb⟩ := hwf.get hg
    exact ⟨fromBeBytes4 x, by simp [LinearCombinerService.get_value, hg, hl],
      fromBeBytes4_lt x hl hb⟩

/-- On a well-formed store the combiner's checkpoint read succeeds. -/
theorem read_checkpoint_wf {db : Store} (hwf : StoreWF db) :
    ∃ n, LinearCombinerService.read_checkpoint db = some n := by
  cases hg : db.get checkpointKey with
  | none => exact ⟨0, by simp [LinearCombinerService.read_checkpoint, hg]⟩
  | some x =>
    obtain ⟨hl, _⟩ := hwf.get hg
    exact ⟨fromBeBytes4 x,
      by simp [LinearCombinerService.read_checkpoint, hg, hl]⟩

/-- `get_value` after a `put` of an encoded u32, at an arbitrary key. -/
theorem get_value_put (db : Store) (k : List Nat) (n : Nat) (k2 : List Nat) :
    LinearCombinerService.get_value (db.put k (toBeBytes4 n)) k2
      = if k = k2 then some (n % 2 ^ 32)
        else LinearCombinerService.get_value db k2 := by
  by_cases h : k = k2
  · subst h
    simpa using get_value_put_self db k n
  · simp [LinearCombinerService.get_value, Store.get_put, h]

/-- A `put` never makes a present key absent. -/
theorem isSome_get_put (db : Store) (k v k2 : List Nat)
    (h : (db.get k2).isSome = true) :
    ((db.put k v).get k2).isSome = true := by
  rw [Store.get_put]
  split
  · rfl
  · exact h

/-- Writing at an 8-byte composite key does not change how a term with
20-byte addresses resolves its composite key. -/
theorem keyOf_put (m : Store) (key val : List Nat) (t : TermObject)
    (hkl : key.length = 8) (h1 : t.«from».length = 20)
    (h2 : t.«to».length = 20) :
    LinearCombinerService.keyOf (m.put key val) t
      = LinearCombinerService.keyOf m t := by
  have hne1 : key ≠ t.«from» := fun e => by rw [e] at hkl; omega
  have hne2 : key ≠ t.«to» := fun e => by rw [e] at hkl; omega
  simp [LinearCombinerService.keyOf, Store.get_put, hne1, hne2]

/-- Writing at an 8-byte composite key does not change any weight total of
terms with 20-byte addresses. -/
theorem weightSum_put (m : Store) (key val k : List Nat)
    (terms : List TermObject) (hkl : key.length = 8)
    (h : ∀ t ∈ terms, t.«from».length = 20 ∧ t.«to».length = 20) :
    LinearCombinerService.weightSum (m.put key val) k terms
      = LinearCombinerService.weightSum m k terms := by
  have hc : ∀ t ∈ terms,
      decide (LinearCombinerService.keyOf (m.put key val) t = k)
        = decide (LinearCombinerService.keyOf m t = k) := by
    intro t ht
    rw [keyOf_put m key val t hkl (h t ht).1 (h t ht).2]
  unfold LinearCombinerService.weightSum
  rw [List.filter_congr hc]

/-- Splitting a weight total at the head term. -/
theorem weightSum_cons (m : Store) (k : List Nat) (t : TermObject)
    (rest : List TermObject) :
    LinearCombinerService.weightSum m k (t :: rest)
      = (if LinearCombinerService.keyOf m t = k then t.weight else 0)
        + LinearCombinerService.weightSum m k rest := by
  unfold LinearCombinerService.weightSum
  by_cases h : LinearCombinerService.keyOf m t = k <;>
    simp [List.filter_cons, h]

/-- Weight totals are invariant under permutation of the term list. -/
theorem weightSum_perm (m : Store) (k : List Nat) {l1 l2 : List TermObject}
    (h : l1.Perm l2) :
    LinearCombinerService.weightSum m k l1
      = LinearCombinerService.weightSum m k l2 :=
  List.Perm.sum_eq ((h.filter _).map _)

/-- Characterisation of the `sync_transformer` processing loop on a
well-formed store whose index table already covers every address of the
batch: the loop succeeds without assigning any index, and the final
aggregate value at every key is the initial value plus the total weight the
batch contributes to that key, in u32 arithmetic. -/
theorem process_fold_char (terms : List TermObject) :
    ∀ (m u : Store) (off : Nat), StoreWF m →
      (∀ t ∈ terms, (m.get t.«from»).isSome = true ∧ t.«from».length = 20 ∧
        (m.get t.«to»).isSome = true ∧ t.«to».length = 20) →
      ∃ M U,
        terms.foldlM LinearCombinerService.process_term (m, u, off)
          = some (M, U, off) ∧
        ∀ k, LinearCombinerService.get_value M k
          = some (((LinearCombinerService.get_value m k).getD 0
              + LinearCombinerService.weightSum m k terms) % 2 ^ 32) := by
  induction terms with
  | nil =>
    intro m u off hwf _
    refine ⟨m, u, rfl, fun k => ?_⟩
    obtain ⟨v, hv, hlt⟩ := get_value_wf hwf k
    rw [hv]
    simp only [LinearCombinerService.weightSum, List.filter_nil, List.map_nil,
      List.sum_nil, Nat.add_zero, Option.getD_some, Option.some.injEq]
    omega
  | cons t rest ih =>
    intro m u off hwf haddr
    obtain ⟨hf, hflen, htt, htlen⟩ := haddr t (List.mem_cons_self t rest)
    obtain ⟨x, hx⟩ := Option.isSome_iff_exists.mp hf
    obtain ⟨y, hy⟩ := Option.isSome_iff_exists.mp htt
    obtain ⟨hxlen, _⟩ := hwf.get hx
    obtain ⟨hylen, _⟩ := hwf.get hy
    have hkeylen : (x ++ y).length = 8 := by simp [hxlen, hylen]
    obtain ⟨v, hv, hvlt⟩ := get_value_wf hwf (x ++ y)
    have hkeyof : LinearCombinerService.keyOf m t = x ++ y := by
      simp [LinearCombinerService.keyOf, hx, hy]
    have hstep : LinearCombinerService.process_term (m, u, off) t
        = some (m.put (x ++ y) (toBeBytes4 (v + t.weight)),
            u.put (x ++ y) (toBeBytes4 (v + t.weight)), off) := by
      simp [LinearCombinerService.process_term, LinearCombinerService.get_index,
        hx, hy, LinearCombinerService.update_value, hv]
    have hwf2 : StoreWF (m.put (x ++ y) (toBeBytes4 (v + t.weight))) :=
      hwf.put_toBe _ _
    have haddr2 : ∀ t2 ∈ rest,
        ((m.put (x ++ y) (toBeBytes4 (v + t.weight))).get t2.«from»).isSome
            = true ∧
          t2.«from».length = 20 ∧
          ((m.put (x ++ y) (toBeBytes4 (v + t.weight))).get t2.«to»).isSome
            = true ∧
          t2.«to».length = 20 := by
      intro t2 h2
      obtain ⟨a1, a2, a3, a4⟩ := haddr t2 (List.mem_cons_of_mem t h2)
      exact ⟨isSome_get_put _ _ _ _ a1, a2, isSome_get_put _ _ _ _ a3, a4⟩
    obtain ⟨M, U, hfold, hval⟩ :=
      ih (m.put (x ++ y) (toBeBytes4 (v + t.weight)))
        (u.put (x ++ y) (toBeBytes4 (v + t.weight))) off hwf2 haddr2
    have hlens : ∀ t2 ∈ rest, t2.«from».length = 20 ∧ t2.«to».length = 20 := by
      intro t2 h2
      obtain ⟨_, a2, _, a4⟩ := haddr t2 (List.mem_cons_of_mem t h2)
      exact ⟨a2, a4⟩
    refine ⟨M, U, ?_, fun k => ?_⟩
    · rw [List.foldlM_cons, hstep]
      simpa using hfold
    · rw [hval k,
        weightSum_put m (x ++ y) (toBeBytes4 (v + t.weight)) k rest hkeylen
          hlens,
        weightSum_cons, get_value_put]
      by_cases hk : x ++ y = k
      · subst hk
        rw [if_pos rfl, if_pos hkeyof, hv]
        simp only [Option.getD_some]
        congr 1
        rw [Nat.mod_add_mod, Nat.add_assoc]
      · rw [if_neg hk, if_neg (by rw [hkeyof]; exact hk)]
        simp

/-- Claim C7 (counterexample): the same two terms fed in the two possible
orders give different accumulated values at composite key (0, 1), because
index assignment depends on encounter order — so the claim as stated, over
every multiset of Terms, is false. -/
theorem sync_transformer_order_dependent_cex :
    ([tAB, tCD] : List TermObject).Perm [tCD, tAB] ∧
    (LinearCombinerService.sync_transformer Store.empty Store.empty
        [tAB, tCD]).map
      (fun r => LinearCombinerService.get_value r.1
        (toBeBytes4 0 ++ toBeBytes4 1)) = some (some 1) ∧
    (LinearCombinerService.sync_transformer Store.empty Store.empty
        [tCD, tAB]).map
      (fun r => LinearCombinerService.get_value r.1
        (toBeBytes4 0 ++ toBeBytes4 1)) = some (some 2) :=
  ⟨List.Perm.swap tCD tAB [], by decide, by decide⟩

/-- Claim C7 (amended): for every multiset of Terms all of whose from/to
addresses are already present in the combiner's index table (the store
being well-formed), feeding the terms to `sync_transformer` in any arrival
order succeeds and yields the same final accumulated value for each
composite key in the aggregate matrix. -/
theorem sync_transformer_perm_invariant (m u : Store)
    (ts1 ts2 : List TermObject) (k : List Nat)
    (hperm : ts1.Perm ts2) (hwf : StoreWF m)
    (haddr : ∀ t ∈ ts1, (m.get t.«from»).isSome = true ∧
      t.«from».length = 20 ∧ (m.get t.«to»).isSome = true ∧
      t.«to».length = 20) :
    (LinearCombinerService.sync_transformer m u ts1).map
        (fun r => LinearCombinerService.get_value r.1 k)
      = (LinearCombinerService.sync_transformer m u ts2).map
        (fun r => LinearCombinerService.get_value r.1 k) ∧
    (LinearCombinerService.sync_transformer m u ts1).isSome = true := by
  obtain ⟨off0, hrc⟩ := read_checkpoint_wf hwf
  have haddr2 : ∀ t ∈ ts2, (m.get t.«from»).isSome = true ∧
      t.«from».length = 20 ∧ (m.get t.«to»).isSome = true ∧
      t.«to».length = 20 := fun t ht => haddr t (hperm.mem_iff.mpr ht)
  obtain ⟨M1, U1, hf1, hv1⟩ := process_fold_char ts1 m u off0 hwf haddr
  obtain ⟨M2, U2, hf2, hv2⟩ := process_fold_char ts2 m u off0 hwf haddr2
  have hs1 : LinearCombinerService.sync_transformer m u ts1
      = some (LinearCombinerService.write_checkpoint M1 off0, U1) := by
    simp [LinearCombinerService.sync_transformer, hrc, hf1]
  have hs2 : LinearCombinerService.sync_transformer m u ts2
      = some (LinearCombinerService.write_checkpoint M2 off0, U2) := by
    simp [LinearCombinerService.sync_transformer, hrc, hf2]
  refine ⟨?_, by rw [hs1]; rfl⟩
  rw [hs1, hs2]
  have hgv : LinearCombinerService.get_value
      (LinearCombinerService.write_checkpoint M1 off0) k
      = LinearCombinerService.get_value
        (LinearCombinerService.write_checkpoint M2 off0) k := by
    unfold LinearCombinerService.write_checkpoint
    rw [get_value_put, get_value_put]
    by_cases hck : checkpointKey = k
    · rw [if_pos hck, if_pos hck]
    · rw [if_neg hck, if_neg hck, hv1 k, hv2 k, weightSum_perm m k hperm]
  simp [hgv]

/-- Witness for the amended C7 at a concrete pre-indexed store and a
two-term batch in both orders. -/
theorem sync_transformer_perm_invariant_witness :
    ([tAB5, tBA7] : List TermObject).Perm [tBA7, tAB5] ∧ StoreWF idxStore ∧
    (∀ t ∈ ([tAB5, tBA7] : List TermObject),
      (idxStore.get t.«from»).isSome = true ∧ t.«from».length = 20 ∧
      (idxStore.get t.«to»).isSome = true ∧ t.«to».length = 20) ∧
    ((LinearCombinerService.sync_transformer idxStore Store.empty
        [tAB5, tBA7]).map
      (fun r => LinearCombinerService.get_value r.1
        (toBeBytes4 0 ++ toBeBytes4 1))
      = (LinearCombinerService.sync_transformer idxStore Store.empty
        [tBA7, tAB5]).map
      (fun r => LinearCombinerService.get_value r.1
        (toBeBytes4 0 ++ toBeBytes4 1)) ∧
    (LinearCombinerService.sync_transformer idxStore Store.empty
      [tAB5, tBA7]).isSome = true) :=
  ⟨List.Perm.swap tBA7 tAB5 [], by simp only [StoreWF]; decide, by decide,
    sync_transformer_perm_invariant idxStore Store.empty [tAB5, tBA7]
      [tBA7, tAB5] (toBeBytes4 0 ++ toBeBytes4 1)
      (List.Perm.swap tBA7 tAB5 []) (by simp only [StoreWF]; decide)
      (by decide)⟩
